import Mathlib

/-!
Verification of the swingtime recurrence core (`src/swingtime/base_models.py`).

Timestamps are modelled as integers counting microseconds from an arbitrary
epoch (Python naive `datetime` arithmetic is exact microsecond arithmetic);
durations (`timedelta`) are likewise integers of microseconds.  With a
positive divisor, Lean's Euclidean `%` on `ℤ` agrees with Python's floor
`%`, so `t - t % d` is the truncation of `t` to a multiple of `d` (start of
day, start of hour).
-/

namespace Swingtime

/-- Microseconds in one day. -/
def usecPerDay : ℤ := 86400000000

/-- Microseconds in one hour. -/
def usecPerHour : ℤ := 3600000000

/-- The fixed-step `dateutil.rrule` frequencies used by the engine
(`rrule.DAILY` is the default installed by `add_occurrences`). -/
inductive Freq where
  | WEEKLY
  | DAILY
  | HOURLY
  | MINUTELY
  | SECONDLY
deriving DecidableEq, Repr

/-- Step size of one frequency unit, in microseconds. -/
def Freq.stepUsec : Freq → ℕ
  | .WEEKLY => 604800000000
  | .DAILY => 86400000000
  | .HOURLY => 3600000000
  | .MINUTELY => 60000000
  | .SECONDLY => 1000000

/-- The `rrule_params` keyword arguments of `EventBase.add_occurrences` that
the engine inspects: `freq` (absent ⇒ `setdefault` to `DAILY`), `interval`
(the `dateutil` default is 1), `count` and `until`. -/
structure RRuleParams where
  freq : Option Freq := none
  interval : ℕ := 1
  count : Option ℕ := none
  until_ : Option ℤ := none
deriving DecidableEq, Repr

/-- Modelled from the spec: the anchor stream of `dateutil.rrule.rrule`
(which is a third-party collaborator, not part of `src/`), restricted to the
fixed-step frequencies with an `interval`: "generate the anchor timestamps of
the rule (every date/time matching frequency+interval ... starting at
`start_time`, stopping at `count` anchors or at the last anchor ≤ `until`)".
Anchors are `dtstart + k * interval * step`; with `count = n` the first `n`
of them are kept, and an `until` bound keeps only anchors `≤ until` (the
iterator stops at the first anchor past `until`; on the increasing anchor
stream this is the same as filtering).  The `none`/`none` case is never
reached from `addOccurrences`. -/
def rruleAnchors (dtstart : ℤ) (freq : Freq) (interval : ℕ)
    (count : Option ℕ) (until_ : Option ℤ) : List ℤ :=
  let step : ℕ := interval * freq.stepUsec
  match count, until_ with
  | some n, some u =>
      ((List.range n).map (fun k => dtstart + (k * step : ℕ))).filter
        (fun a => a ≤ u)
  | some n, none => (List.range n).map (fun k => dtstart + (k * step : ℕ))
  | none, some u =>
      if u < dtstart then []
      else (List.range ((u - dtstart).toNat / step + 1)).map
        (fun k => dtstart + (k * step : ℕ))
  | none, none => []

/-- An `Occurrence` row: owning event (by id), start and end timestamps. -/
structure Occurrence where
  event : ℕ
  start_time : ℤ
  end_time : ℤ
deriving DecidableEq, Repr

/-- Python truthiness of the `count` value read by
`rrule_params.get('count')`: `None` and `0` are falsy. -/
def countTruthy : Option ℕ → Bool
  | some (_ + 1) => true
  | _ => false

/-- Python truthiness of the `until` value: a `datetime` is always truthy,
so only `None` is falsy. -/
def untilTruthy : Option ℤ → Bool :=
  Option.isSome

/-- `EventBase.add_occurrences(start_time, end_time, **rrule_params)`
(base_models.py lines 54-85), returning the list of occurrences it creates
for the event `ev`.  If `not (count or until)` a single occurrence with the
literal `start_time`/`end_time` is created; otherwise `freq` is defaulted to
`DAILY`, `delta = end_time - start_time`, and one occurrence
`(a, a + delta)` is built per rrule anchor `a`. -/
def addOccurrences (ev : ℕ) (start_time end_time : ℤ) (p : RRuleParams) :
    List Occurrence :=
  if !(countTruthy p.count || untilTruthy p.until_) then
    [⟨ev, start_time, end_time⟩]
  else
    let f := p.freq.getD Freq.DAILY
    let delta := end_time - start_time
    (rruleAnchors start_time f p.interval p.count p.until_).map
      (fun a => ⟨ev, a, a + delta⟩)

/-- `datetime(dt.year, dt.month, dt.day)`: midnight of the day containing
`t`, i.e. `t` truncated down to a multiple of a day. -/
def startOfDay (t : ℤ) : ℤ :=
  t - t % usecPerDay

/-- `now.replace(minute=0, second=0, microsecond=0)`: `t` truncated down to
the start of its hour. -/
def truncToHour (t : ℤ) : ℤ :=
  t - t % usecPerHour

/-- The three-clause overlap test of `_daily_occurrences`
(base_models.py lines 113-117): start in window, or end in window, or the
occurrence strictly spans the window.  All comparisons are as in the `Q`
objects: `__gte`/`__lte` inclusive, `__lt`/`__gt` strict. -/
def overlapsWindow (ws we s e : ℤ) : Bool :=
  (decide (ws ≤ s) && decide (s ≤ we)) ||
  (decide (ws ≤ e) && decide (e ≤ we)) ||
  (decide (s < ws) && decide (e > we))

/-- The textbook interval-overlap test `start <= window_end AND
end >= window_start` that the spec contrasts with the three-clause
predicate.  This definition follows the spec's words, for comparison. -/
def simpleOverlap (ws we s e : ℤ) : Bool :=
  decide (s ≤ we) && decide (ws ≤ e)

/-- `_daily_occurrences(obj, dt)` (base_models.py lines 109-117): the store
filtered by the three-clause predicate against the window
`[midnight of dt, same day 23:59:59]` (the window end is
`start.replace(hour=23, minute=59, second=59)`, i.e. midnight plus
86399 seconds, microsecond still 0). -/
def dailyOccurrencesQ (store : List Occurrence) (dt : ℤ) : List Occurrence :=
  let ws := startOfDay dt
  let we := ws + 86399000000
  store.filter (fun o => overlapsWindow ws we o.start_time o.end_time)

/-- `OccurrenceManager.daily_occurrences(dt, event)` (base_models.py lines
124-135): `_daily_occurrences` and then, if an event was supplied (an event
instance is always truthy), a further filter to that event's occurrences. -/
def managerDailyOccurrences (store : List Occurrence) (dt : ℤ)
    (event : Option ℕ) : List Occurrence :=
  let qs := dailyOccurrencesQ store dt
  match event with
  | some ev => qs.filter (fun o => o.event = ev)
  | none => qs

/-- The default queryset ordering of occurrences,
`Meta.ordering = ('start_time', 'end_time')`: lexicographic on
`(start_time, end_time)`. -/
def occLe (a b : Occurrence) : Bool :=
  decide (a.start_time < b.start_time) ||
  (decide (a.start_time = b.start_time) && decide (a.end_time ≤ b.end_time))

/-- `occLe` as a relation, for sorting. -/
def occLeP (a b : Occurrence) : Prop :=
  occLe a b = true

instance : DecidableRel occLeP :=
  fun a b => inferInstanceAs (Decidable (occLe a b = true))

instance : IsTotal Occurrence occLeP :=
  ⟨by intro a b; simp only [occLeP, occLe, Bool.or_eq_true, Bool.and_eq_true,
    decide_eq_true_eq]; omega⟩

instance : IsTrans Occurrence occLeP :=
  ⟨by intro a b c; simp only [occLeP, occLe, Bool.or_eq_true, Bool.and_eq_true,
    decide_eq_true_eq]; omega⟩

instance : IsRefl Occurrence occLeP :=
  ⟨by intro a; simp [occLeP, occLe]⟩

/-- `EventBase.upcoming_occurrences()`: the event's occurrences with
`start_time >= now`. -/
def upcomingOccurrences (store : List Occurrence) (ev : ℕ) (now : ℤ) :
    List Occurrence :=
  store.filter (fun o => o.event = ev && decide (now ≤ o.start_time))

/-- `EventBase.next_occurrence()`: `upcoming[0] if upcoming else None`,
where indexing a queryset follows the default `(start_time, end_time)`
ordering.  Modelled as the head of the upcoming list (stably) sorted by
`occLe`. -/
def nextOccurrence (store : List Occurrence) (ev : ℕ) (now : ℤ) :
    Option Occurrence :=
  (List.insertionSort occLeP (upcomingOccurrences store ev now)).head?

/-- An `EventType` row: `abbr` (declared `unique=True`) and `label`. -/
structure EventType where
  abbr : String
  label : String
deriving DecidableEq, Repr

/-- The `event_type_cls.objects.get_or_create(abbr=..., label=...)` call of
`inner_create_event` (base_models.py lines 208-212): both fields are lookup
parameters, so the lookup only hits when `abbr` AND `label` match an
existing row; on a miss a row is inserted, which the database rejects
(IntegrityError) when another row already holds the same `abbr`, because
`abbr` is `unique=True` (base_models.py line 22).  Returns the event type,
the `created` flag and the updated store. -/
def getOrCreateEventType (store : List EventType) (abbr label : String) :
    Except String (EventType × Bool × List EventType) :=
  match store.find? (fun et => et.abbr = abbr && et.label = label) with
  | some et => .ok (et, false, store)
  | none =>
      if store.any (fun et => et.abbr = abbr) then
        .error "IntegrityError: duplicate abbr"
      else
        .ok (⟨abbr, label⟩, true, store ++ [⟨abbr, label⟩])

/-- What `inner_create_event` produced: the resolved event type (and whether
a new one was inserted), the event-type store after the call, the effective
`start_time`/`end_time` after defaulting, and the created occurrences. -/
structure CreateEventResult where
  event_type : EventType
  type_created : Bool
  etStore : List EventType
  used_start : ℤ
  used_end : ℤ
  occurrences : List Occurrence
deriving DecidableEq, Repr

/-- `inner_create_event` from `event_creation_factory` (base_models.py lines
175-228).  `event_type` is either an existing `EventType` instance or an
`(abbreviation, label)` pair resolved through `getOrCreateEventType`;
`start_time` defaults (`or`, a datetime being always truthy) to `now`
truncated to the hour, `end_time` to the effective start plus
`DEFAULT_OCCURRENCE_DURATION` (the configuration input `duration`); the new
event `newEventId` then receives `addOccurrences` with the effective
times. -/
def innerCreateEvent (duration now : ℤ) (etStore : List EventType)
    (_title _description : String) (event_type : EventType ⊕ String × String)
    (start_time end_time : Option ℤ) (p : RRuleParams) (newEventId : ℕ) :
    Except String CreateEventResult :=
  match event_type with
  | .inl et =>
      let s := start_time.getD (truncToHour now)
      let e := end_time.getD (s + duration)
      .ok ⟨et, false, etStore, s, e, addOccurrences newEventId s e p⟩
  | .inr (a, l) =>
      match getOrCreateEventType etStore a l with
      | .error msg => .error msg
      | .ok (et, created, st) =>
          let s := start_time.getD (truncToHour now)
          let e := end_time.getD (s + duration)
          .ok ⟨et, created, st, s, e, addOccurrences newEventId s e p⟩

/-! Helper lemmas shared by the claim theorems. -/

theorem countTruthy_none : countTruthy none = false := rfl

theorem countTruthy_zero : countTruthy (some 0) = false := rfl

/-- With `count` unset and `until < start_time`, the anchor stream is empty
and `add_occurrences` bulk-creates the empty list. -/
theorem addOccurrences_until_lt (ev : ℕ) (s e U : ℤ) (p : RRuleParams)
    (hc : p.count = none) (hu : p.until_ = some U) (hU : U < s) :
    addOccurrences ev s e p = [] := by
  simp [addOccurrences, hc, hu, countTruthy_none, untilTruthy, rruleAnchors, hU]

theorem Freq.stepUsec_pos (f : Freq) : 0 < f.stepUsec := by
  cases f <;> simp [Freq.stepUsec]

/-- Claim C1: when the recurrence parameters contain neither
`count` nor `until`, `add_occurrences` creates exactly one occurrence with
the literal `start_time` and `end_time`; the guard takes the single-creation
branch, so no rrule expansion is attempted. -/
theorem claim1 (ev : ℕ) (s e : ℤ) (p : RRuleParams)
    (hc : p.count = none) (hu : p.until_ = none) :
    addOccurrences ev s e p = [⟨ev, s, e⟩] := by
  simp [addOccurrences, hc, hu, countTruthy_none, untilTruthy]

/-- Witness for C1 at a concrete input. -/
theorem claim1_witness :
    addOccurrences 0 5 7 ⟨none, 1, none, none⟩ = [⟨0, 5, 7⟩] :=
  claim1 0 5 7 ⟨none, 1, none, none⟩ rfl rfl

/-- Claim C9: `count = 0` with no `until` is falsy under the
`not (count or until)` guard, so it is treated like a missing bound: exactly
one occurrence with the literal `start_time`/`end_time` is created (not zero
occurrences). -/
theorem claim9 (ev : ℕ) (s e : ℤ) (p : RRuleParams)
    (hc : p.count = some 0) (hu : p.until_ = none) :
    addOccurrences ev s e p = [⟨ev, s, e⟩] := by
  simp [addOccurrences, hc, hu, countTruthy_zero, untilTruthy]

/-- Witness for C9 at a concrete input. -/
theorem claim9_witness :
    addOccurrences 0 5 7 ⟨none, 1, some 0, none⟩ = [⟨0, 5, 7⟩] :=
  claim9 0 5 7 ⟨none, 1, some 0, none⟩ rfl rfl

/-- Claim C5 counterexample: the claim says the expansion fails with
`InvalidSpecification` whenever `until < start_time`.  The code defines no
such error: here `until = 50 < 100 = start_time` and the call completes
normally, creating zero occurrences (the rrule stream is empty and
`bulk_create` receives the empty list). -/
theorem claim5_counterexample :
    addOccurrences 0 100 200 ⟨none, 1, none, some 50⟩ = [] := rfl

/-- Claim C5 amended: the code raises no
`InvalidSpecification` (no such validation exists anywhere in the source);
when `until < start_time` and `count` is unset, the expansion yields no
anchors and the call succeeds, creating zero occurrences.  A non-positive
`interval` is passed through to the rrule library unvalidated. -/
theorem claim5_amended (ev : ℕ) (s e U : ℤ) (p : RRuleParams)
    (hc : p.count = none) (hu : p.until_ = some U) (hU : U < s) :
    addOccurrences ev s e p = [] :=
  addOccurrences_until_lt ev s e U p hc hu hU

/-- Witness for the amended C5 at a concrete input. -/
theorem claim5_witness :
    addOccurrences 3 1000 2000 ⟨some Freq.WEEKLY, 2, none, some 999⟩ = [] :=
  claim5_amended 3 1000 2000 999 ⟨some Freq.WEEKLY, 2, none, some 999⟩ rfl rfl
    (by decide)

theorem countTruthy_succ (n : ℕ) : countTruthy (some (n + 1)) = true := rfl

/-- With a truthy `count = N` and no `until`, `add_occurrences` creates one
occurrence per rrule anchor `s + k * interval * step`, `k < N`, each of
duration `e - s`. -/
theorem addOccurrences_count_until_none (ev : ℕ) (s e : ℤ) (p : RRuleParams)
    (N : ℕ) (hc : p.count = some N) (hN : 1 ≤ N) (hu : p.until_ = none) :
    addOccurrences ev s e p =
      (List.range N).map (fun k =>
        ⟨ev, s + (k * (p.interval * (p.freq.getD Freq.DAILY).stepUsec) : ℕ),
          s + (k * (p.interval * (p.freq.getD Freq.DAILY).stepUsec) : ℕ) +
            (e - s)⟩) := by
  obtain ⟨m, rfl⟩ := Nat.exists_eq_succ_of_ne_zero (Nat.one_le_iff_ne_zero.mp hN)
  simp [addOccurrences, hc, hu, countTruthy_succ, untilTruthy, rruleAnchors,
    List.map_map]

/-- With `count` unset and `until = U ≥ s`, `add_occurrences` creates one
occurrence per rrule anchor `s + k * interval * step`,
`k ≤ (U - s) / step`. -/
theorem addOccurrences_until_ge (ev : ℕ) (s e U : ℤ) (p : RRuleParams)
    (hc : p.count = none) (hu : p.until_ = some U) (hsU : s ≤ U) :
    addOccurrences ev s e p =
      (List.range ((U - s).toNat /
          (p.interval * (p.freq.getD Freq.DAILY).stepUsec) + 1)).map (fun k =>
        ⟨ev, s + (k * (p.interval * (p.freq.getD Freq.DAILY).stepUsec) : ℕ),
          s + (k * (p.interval * (p.freq.getD Freq.DAILY).stepUsec) : ℕ) +
            (e - s)⟩) := by
  have h : ¬ U < s := not_lt.mpr hsU
  simp [addOccurrences, hc, hu, countTruthy_none, untilTruthy, rruleAnchors,
    h, List.map_map]

/-- Claim C2 counterexample: the claim quantifies over every valid spec with
`count = N ≥ 1`; this spec (`count = 3`, `interval = 1`, daily,
`until` one day after `start_time`, so `until ≥ start_time`) is valid, yet
only 2 occurrences are created, because the `until` bound truncates the
stream before `count` anchors are reached. -/
theorem claim2_counterexample :
    (addOccurrences 0 0 3600000000
      ⟨none, 1, some 3, some 86400000000⟩).length ≠ 3 := by decide

/-- Claim C2 amended: for every valid spec with `count = N` (`N ≥ 1`) and
`until` unset, the expansion creates exactly `N` occurrences; each has
duration `end_time - start_time`; the `k`-th occurrence starts at the anchor
`start_time + k * interval * step` (so the first anchor is `start_time` and
successive anchors follow the frequency/interval rule), and the step
frequency is `freq` or `DAILY` when `freq` is unspecified. -/
theorem claim2_amended (ev : ℕ) (s e : ℤ) (p : RRuleParams) (N : ℕ)
    (hc : p.count = some N) (hN : 1 ≤ N) (hu : p.until_ = none)
    (_hi : 1 ≤ p.interval) :
    (addOccurrences ev s e p).length = N ∧
    (∀ o ∈ addOccurrences ev s e p, o.end_time - o.start_time = e - s) ∧
    (∀ k, k < N → (addOccurrences ev s e p)[k]? =
      some ⟨ev,
        s + (k * (p.interval * (p.freq.getD Freq.DAILY).stepUsec) : ℕ),
        s + (k * (p.interval * (p.freq.getD Freq.DAILY).stepUsec) : ℕ) +
          (e - s)⟩) ∧
    ((addOccurrences ev s e p).head?.map Occurrence.start_time = some s) ∧
    (p.freq = none → p.freq.getD Freq.DAILY = Freq.DAILY) := by
  rw [addOccurrences_count_until_none ev s e p N hc hN hu]
  refine ⟨by simp, ?_, ?_, ?_, fun h => by rw [h]; rfl⟩
  · intro o ho
    simp only [List.mem_map, List.mem_range] at ho
    obtain ⟨k, _, rfl⟩ := ho
    ring
  · intro k hk
    simp [List.getElem?_map, List.getElem?_range hk]
  · obtain ⟨m, rfl⟩ := Nat.exists_eq_succ_of_ne_zero (Nat.one_le_iff_ne_zero.mp hN)
    simp [List.range_succ_eq_map]

/-- Witness for the amended C2 at a concrete input. -/
theorem claim2_witness :
    (addOccurrences 0 0 1 ⟨none, 1, some 2, none⟩).length = 2 :=
  (claim2_amended 0 0 1 ⟨none, 1, some 2, none⟩ 2 rfl (by decide) rfl
    (by decide)).1

/-- Claim C3 counterexample: the claim quantifies over every valid spec with
`until = U`; this spec also carries `count = 1` (`interval = 1`, daily,
`U` ten days after `start_time`).  The produced anchors are exactly `[0]`,
yet the next anchor of the rule beyond the last produced one,
`0 + 1 * (1 * DAILY step)`, is still `≤ U` and is not produced — the anchor
set is not maximal under the bound, because `count` truncated it first. -/
theorem claim3_counterexample :
    (addOccurrences 0 0 3600000000
        ⟨none, 1, some 1, some 864000000000⟩).map Occurrence.start_time =
      [0] ∧
    ((0 : ℤ) + (1 * (1 * Freq.DAILY.stepUsec) : ℕ)) ≤ 864000000000 ∧
    ((0 : ℤ) + (1 * (1 * Freq.DAILY.stepUsec) : ℕ)) ∉
      (addOccurrences 0 0 3600000000
        ⟨none, 1, some 1, some 864000000000⟩).map Occurrence.start_time := by
  exact ⟨by decide, by decide, by decide⟩

/-- Claim C3 amended: for every valid spec with `until = U` and `count`
unset, every produced occurrence start is `≤ U`, and the next anchor of the
frequency/interval rule beyond the last produced one (the `n`-th anchor
`start_time + n * interval * step`, where `n` is the number produced)
exceeds `U`: the produced anchor set is maximal under the bound. -/
theorem claim3_amended (ev : ℕ) (s e U : ℤ) (p : RRuleParams)
    (hu : p.until_ = some U) (hc : p.count = none) (hi : 1 ≤ p.interval) :
    (∀ o ∈ addOccurrences ev s e p, o.start_time ≤ U) ∧
    U < s + (((addOccurrences ev s e p).length *
      (p.interval * (p.freq.getD Freq.DAILY).stepUsec) : ℕ) : ℤ) := by
  have hstep : 0 < p.interval * (p.freq.getD Freq.DAILY).stepUsec :=
    Nat.mul_pos hi (Freq.stepUsec_pos _)
  by_cases hUs : U < s
  · rw [addOccurrences_until_lt ev s e U p hc hu hUs]
    exact ⟨by simp, by simpa using hUs⟩
  · have hsU : s ≤ U := not_lt.mp hUs
    rw [addOccurrences_until_ge ev s e U p hc hu hsU]
    have hr : ((U - s).toNat : ℤ) = U - s := Int.toNat_of_nonneg (by omega)
    constructor
    · intro o ho
      simp only [List.mem_map, List.mem_range] at ho
      obtain ⟨k, hk, rfl⟩ := ho
      have h1 : k ≤ (U - s).toNat / (p.interval * (p.freq.getD Freq.DAILY).stepUsec) :=
        Nat.lt_succ_iff.mp hk
      have h2 : k * (p.interval * (p.freq.getD Freq.DAILY).stepUsec) ≤ (U - s).toNat :=
        le_trans (Nat.mul_le_mul_right _ h1) (Nat.div_mul_le_self _ _)
      have h3 : ((k * (p.interval * (p.freq.getD Freq.DAILY).stepUsec) : ℕ) : ℤ) ≤
          ((U - s).toNat : ℤ) := Int.ofNat_le.mpr h2
      show s + ((k * (p.interval * (p.freq.getD Freq.DAILY).stepUsec) : ℕ) : ℤ) ≤ U
      linarith [hr, h3]
    · simp only [List.length_map, List.length_range]
      have h2 : (U - s).toNat <
          ((U - s).toNat / (p.interval * (p.freq.getD Freq.DAILY).stepUsec) + 1) *
            (p.interval * (p.freq.getD Freq.DAILY).stepUsec) := by
        have hmod : (U - s).toNat % (p.interval * (p.freq.getD Freq.DAILY).stepUsec) <
            p.interval * (p.freq.getD Freq.DAILY).stepUsec :=
          Nat.mod_lt _ hstep
        have hdm := Nat.div_add_mod (U - s).toNat
          (p.interval * (p.freq.getD Freq.DAILY).stepUsec)
        calc (U - s).toNat
            = (p.interval * (p.freq.getD Freq.DAILY).stepUsec) *
                ((U - s).toNat / (p.interval * (p.freq.getD Freq.DAILY).stepUsec)) +
                (U - s).toNat % (p.interval * (p.freq.getD Freq.DAILY).stepUsec) :=
              hdm.symm
          _ < (p.interval * (p.freq.getD Freq.DAILY).stepUsec) *
                ((U - s).toNat / (p.interval * (p.freq.getD Freq.DAILY).stepUsec)) +
                (p.interval * (p.freq.getD Freq.DAILY).stepUsec) := by omega
          _ = ((U - s).toNat / (p.interval * (p.freq.getD Freq.DAILY).stepUsec) + 1) *
                (p.interval * (p.freq.getD Freq.DAILY).stepUsec) := by ring
      have h3 : (((U - s).toNat : ℕ) : ℤ) <
          ((((U - s).toNat / (p.interval * (p.freq.getD Freq.DAILY).stepUsec) + 1) *
            (p.interval * (p.freq.getD Freq.DAILY).stepUsec) : ℕ) : ℤ) :=
        Int.ofNat_lt.mpr h2
      linarith [hr, h3]

/-- Witness for the amended C3 at a concrete input. -/
theorem claim3_witness :
    (100000000000 : ℤ) < 0 + (((addOccurrences 0 0 1
      ⟨none, 1, none, some 100000000000⟩).length *
        (1 * Freq.DAILY.stepUsec) : ℕ) : ℤ) :=
  (claim3_amended 0 0 1 100000000000 ⟨none, 1, none, some 100000000000⟩
    rfl rfl (by decide)).2

/-- Claim C8: the three-clause overlap predicate of
`_daily_occurrences` and the simple test `start <= window_end AND
end >= window_start` are not equivalent as functions of
`(start, end, window_start, window_end)`: for the window `[0, 10]` and the
(degenerate, end-before-start) occurrence `(11, 5)` the three-clause test
accepts (clause (b): the end lies in the window) while the simple test
rejects (`11 ≤ 10` fails). -/
theorem claim8 :
    ∃ ws we s e : ℤ, overlapsWindow ws we s e ≠ simpleOverlap ws we s e :=
  ⟨0, 10, 11, 5, by decide⟩

/-- Claim C7: in `inner_create_event`, an omitted `start_time`
defaults to `now` with minutes, seconds and microseconds zeroed
(`truncToHour now`, a multiple of one hour lying at most one hour below
`now`), and an omitted `end_time` defaults to the (possibly defaulted)
effective start time plus `DEFAULT_OCCURRENCE_DURATION`. -/
theorem claim7 (duration now : ℤ) (etStore : List EventType)
    (t d : String) (et : EventType) (s0 : ℤ) (p : RRuleParams) (i : ℕ) :
    ((innerCreateEvent duration now etStore t d (.inl et) none none p i).map
      fun r => (r.used_start, r.used_end)) =
        .ok (truncToHour now, truncToHour now + duration) ∧
    ((innerCreateEvent duration now etStore t d (.inl et) (some s0) none p
      i).map fun r => (r.used_start, r.used_end)) = .ok (s0, s0 + duration) ∧
    truncToHour now % usecPerHour = 0 ∧
    0 ≤ now - truncToHour now ∧ now - truncToHour now < usecPerHour := by
  refine ⟨rfl, rfl, ?_, ?_, ?_⟩
  · simp [truncToHour, Int.sub_emod]
  · have := Int.emod_nonneg now (show (usecPerHour : ℤ) ≠ 0 by decide)
    simp only [truncToHour]
    omega
  · have := Int.emod_lt_of_pos now (show (0 : ℤ) < usecPerHour by decide)
    simp only [truncToHour]
    omega

/-- Claim C4: for every day (any timestamp `dt` inside it), store state and
optional event filter, `daily_occurrences` returns exactly the stored
occurrences satisfying, against the window
`[midnight of dt, midnight + 23:59:59]`, the three-clause disjunction —
start within the window, or end within the window, or start strictly before
and end strictly after it — further restricted to the given event's
occurrences when an event is supplied. -/
theorem claim4 (store : List Occurrence) (dt : ℤ) (event : Option ℕ)
    (o : Occurrence) :
    o ∈ managerDailyOccurrences store dt event ↔
      o ∈ store ∧
      ((startOfDay dt ≤ o.start_time ∧
          o.start_time ≤ startOfDay dt + 86399000000) ∨
       (startOfDay dt ≤ o.end_time ∧
          o.end_time ≤ startOfDay dt + 86399000000) ∨
       (o.start_time < startOfDay dt ∧
          o.end_time > startOfDay dt + 86399000000)) ∧
      (∀ ev, event = some ev → o.event = ev) := by
  cases event with
  | none =>
      simp [managerDailyOccurrences, dailyOccurrencesQ, overlapsWindow,
        List.mem_filter]
      tauto
  | some ev =>
      simp [managerDailyOccurrences, dailyOccurrencesQ, overlapsWindow,
        List.mem_filter]
      tauto

/-- Witness for C4 at a concrete input. -/
theorem claim4_witness :
    (⟨0, 5, 6⟩ : Occurrence) ∈ managerDailyOccurrences [⟨0, 5, 6⟩] 0 none :=
  (claim4 [⟨0, 5, 6⟩] 0 none ⟨0, 5, 6⟩).mpr
    ⟨by decide, by decide, fun ev h => nomatch h⟩

/-- Claim C6 counterexample: the store already holds an `EventType` with
abbreviation `PRAC` (label `Other`).  `create_event` with the tuple
`("PRAC", "Practice Session")` does not use that existing `EventType`: the
`get_or_create` lookup filters on abbreviation AND label, misses, and
attempts to insert a second `PRAC` row, which the unique-abbreviation
constraint rejects — the call fails instead of reusing the existing row. -/
theorem claim6_counterexample :
    innerCreateEvent 3600000000 0 [⟨"PRAC", "Other"⟩] "Practice" ""
      (.inr ("PRAC", "Practice Session")) none none ⟨none, 1, none, none⟩ 0 =
    .error "IntegrityError: duplicate abbr" := rfl

/-- Claim C6 amended: `create_event` with an `(abbreviation, label)` tuple
uses an existing `EventType` (creating none) only when both the abbreviation
and the label match an existing row; when the abbreviation exists with a
different label the lookup misses and an insert is attempted, which the
unique-abbreviation constraint rejects; when the abbreviation is absent a
single new `EventType` is created — in particular, in the §8 scenario
starting from a store without `PRAC`, the `PRAC` row is created exactly
once. -/
theorem claim6_amended (d now : ℤ) (st : List EventType) (t dsc : String)
    (a l : String) (s0 e0 : Option ℤ) (p : RRuleParams) (i : ℕ) :
    (∀ et, st.find? (fun x => x.abbr = a && x.label = l) = some et →
      ((innerCreateEvent d now st t dsc (.inr (a, l)) s0 e0 p i).map
        fun r => (r.event_type, r.type_created, r.etStore)) =
          .ok (et, false, st)) ∧
    (st.find? (fun x => x.abbr = a && x.label = l) = none →
      st.any (fun x => x.abbr = a) = true →
      innerCreateEvent d now st t dsc (.inr (a, l)) s0 e0 p i =
        .error "IntegrityError: duplicate abbr") ∧
    (st.find? (fun x => x.abbr = a && x.label = l) = none →
      st.any (fun x => x.abbr = a) = false →
      ((innerCreateEvent d now st t dsc (.inr (a, l)) s0 e0 p i).map
        fun r => (r.event_type, r.type_created, r.etStore)) =
          .ok (⟨a, l⟩, true, st ++ [⟨a, l⟩])) := by
  refine ⟨?_, ?_, ?_⟩
  · intro et h
    simp [innerCreateEvent, getOrCreateEventType, h, Except.map]
  · intro h1 h2
    simp [innerCreateEvent, getOrCreateEventType, h1, h2]
  · intro h1 h2
    simp [innerCreateEvent, getOrCreateEventType, h1, h2, Except.map]

/-- Witness for the amended C6 at a concrete input: with both fields
matching, the existing row is reused and nothing is created. -/
theorem claim6_witness :
    ((innerCreateEvent 3600000000 0 [⟨"PRAC", "Practice Session"⟩] "Practice"
      "" (.inr ("PRAC", "Practice Session")) none none ⟨none, 1, none, none⟩
      0).map fun r => (r.event_type, r.type_created, r.etStore)) =
    .ok (⟨"PRAC", "Practice Session"⟩, false,
      [⟨"PRAC", "Practice Session"⟩]) :=
  (claim6_amended 3600000000 0 [⟨"PRAC", "Practice Session"⟩] "Practice" ""
    "PRAC" "Practice Session" none none ⟨none, 1, none, none⟩ 0).1
    ⟨"PRAC", "Practice Session"⟩ rfl

/-- Claim C10: `next_occurrence` returns `None` exactly when no occurrence
of the event starts at or after the current time; otherwise it returns an
occurrence of the event starting at or after the current time that is
minimal in the `(start_time, end_time)` order among those. -/
theorem claim10 (store : List Occurrence) (ev : ℕ) (now : ℤ) :
    (nextOccurrence store ev now = none ↔
      ∀ o ∈ store, o.event = ev → o.start_time < now) ∧
    (∀ o, nextOccurrence store ev now = some o →
      o ∈ store ∧ o.event = ev ∧ now ≤ o.start_time ∧
      ∀ o' ∈ store, o'.event = ev → now ≤ o'.start_time → occLeP o o') := by
  have hperm := List.perm_insertionSort occLeP (upcomingOccurrences store ev now)
  have hsorted := List.sorted_insertionSort occLeP (upcomingOccurrences store ev now)
  have hkey : List.insertionSort occLeP (upcomingOccurrences store ev now) = []
      ↔ upcomingOccurrences store ev now = [] := by
    constructor
    · intro h
      have hp := hperm
      rw [h] at hp
      exact (List.perm_nil.mp hp.symm)
    · intro h
      rw [h]
      rfl
  constructor
  · rw [nextOccurrence, List.head?_eq_none_iff, hkey, upcomingOccurrences,
      List.filter_eq_nil_iff]
    constructor
    · intro h o ho hev
      have := h o ho
      simp only [Bool.and_eq_true, decide_eq_true_eq, not_and] at this
      exact lt_of_not_le (this hev)
    · intro h o ho
      simp only [Bool.and_eq_true, decide_eq_true_eq, not_and]
      intro hev
      exact not_le.mpr (h o ho hev)
  · intro o h
    have hmemS : o ∈ List.insertionSort occLeP (upcomingOccurrences store ev now) := by
      cases hS : List.insertionSort occLeP (upcomingOccurrences store ev now) with
      | nil => rw [nextOccurrence, hS] at h; simp at h
      | cons b tl =>
          rw [nextOccurrence, hS] at h
          simp only [List.head?_cons, Option.some.injEq] at h
          subst h
          exact List.mem_cons_self b tl
    have hmemL : o ∈ upcomingOccurrences store ev now := hperm.mem_iff.mp hmemS
    have hmemL' := hmemL
    simp only [upcomingOccurrences, List.mem_filter, Bool.and_eq_true,
      decide_eq_true_eq] at hmemL'
    refine ⟨hmemL'.1, hmemL'.2.1, hmemL'.2.2, ?_⟩
    intro o' ho' hev' hst'
    have ho'L : o' ∈ upcomingOccurrences store ev now := by
      simp only [upcomingOccurrences, List.mem_filter, Bool.and_eq_true,
        decide_eq_true_eq]
      exact ⟨ho', hev', hst'⟩
    have ho'S : o' ∈ List.insertionSort occLeP (upcomingOccurrences store ev now) :=
      hperm.mem_iff.mpr ho'L
    cases hS : List.insertionSort occLeP (upcomingOccurrences store ev now) with
    | nil => rw [nextOccurrence, hS] at h; simp at h
    | cons b tl =>
        rw [nextOccurrence, hS] at h
        simp only [List.head?_cons, Option.some.injEq] at h
        subst h
        rw [hS] at ho'S hsorted
        rcases List.pairwise_cons.mp hsorted with ⟨hhead, _⟩
        rcases List.mem_cons.mp ho'S with rfl | htl
        · exact IsRefl.refl o'
        · exact hhead o' htl

/-- Witness for C10 at a concrete input. -/
theorem claim10_witness :
    (⟨0, 10, 20⟩ : Occurrence) ∈ ([⟨0, 10, 20⟩, ⟨0, 5, 6⟩] : List Occurrence) :=
  ((claim10 [⟨0, 10, 20⟩, ⟨0, 5, 6⟩] 0 7).2 ⟨0, 10, 20⟩ (by decide)).1

end Swingtime
